import Mathlib

/-!
Verification development for the ei09010/urlshort repository.

The repository is a Go URL-shortener exercise repeated in several variants:
- src/students/mpereira/handler.go : namespace Mpereira below
- src/unnamed/part_001             : namespace Part001 below
- src/unnamed/part_002             : namespace Part002 below
- src/unnamed/part_003             : namespace Part003 below

Modelling conventions:
- Go strings and byte slices are modelled as Lean String.  A possibly-nil
  byte slice (the result of bolt Bucket.Get) is Option String, none being nil,
  and the Go conversion string(v) of a possibly-nil slice is Option.getD "".
- A Go map[string]string is modelled as an insertion-ordered association list
  with in-place overwrite (putList); reads are getList.  Iterating a Go map
  (range) is modelled as iterating that list in insertion order; Go map range
  order is unspecified, so this is one determinization of it.
- The bolt database is modelled as structure DB: the optional PathRedirect
  bucket content plus a flag readFail that models an engine-level failure of
  db.View (the read transaction), which makes db.View return an error without
  running its closure.  db.Update is modelled with rollback semantics: if the
  update closure returns an error the store is left unchanged.
  bolt Bucket.Put fails on an empty key (ErrKeyRequired); calling Get or Put
  on a nil bucket is a nil-pointer dereference, i.e. a panic.
- The external YAML/JSON unmarshalling libraries (gopkg.in/yaml.v2 and
  encoding/json) are out of scope per the spec and are passed in as
  parameters (YParse / JParse); the file system (ioutil.ReadFile) is the
  parameter FS, none meaning the read fails (e.g. the file is absent).
- An http.Handler is a function from the request path to the response
  outcome HRes: a redirect (status code and Location), a plain body, or a
  crash (a Go panic / nil-pointer dereference terminating the request).
-/

/-- Outcome of running a handler on one request. -/
inductive HRes where
  | redirect (status : Nat) (location : String)
  | body (content : String)
  | crash
deriving DecidableEq

/-- A handler maps the request path to the response outcome. -/
abbrev Handler := String → HRes

/-- The Location of a redirect outcome, none for other outcomes. -/
def redirectTarget : HRes → Option String
  | HRes.redirect _ l => some l
  | _ => none

/-- The status code of a redirect outcome, none for other outcomes. -/
def redirectStatus : HRes → Option Nat
  | HRes.redirect s _ => some s
  | _ => none

/-- One YAML entry: struct pathUrlObj with fields Path, Url. -/
structure PathUrlObj where
  path : String
  url : String
deriving DecidableEq

/-- One JSON entry: struct pathUrlUnit with fields Path, URL. -/
structure PathUrlUnit where
  path : String
  url : String
deriving DecidableEq

/-- The JSON root object: struct pathUrlObjJson with field PathURL. -/
structure PathUrlObjJson where
  pathURL : List PathUrlUnit
deriving DecidableEq

/-- The file system seen by ioutil.ReadFile: none is a read error. -/
abbrev FS := String → Option String

/-- The external json.Unmarshal into pathUrlObjJson. -/
abbrev JParse := String → Except String PathUrlObjJson

/-- The external yaml.Unmarshal into a list of pathUrlObj. -/
abbrev YParse := String → Except String (List PathUrlObj)

/-- Go map write m[k] = v on the association-list model: overwrite the
entry for k in place, or append it at the end. -/
def putList : List (String × String) → String → String → List (String × String)
  | [], k, v => [(k, v)]
  | (k', v') :: rest, k, v =>
    if k' = k then (k, v) :: rest else (k', v') :: putList rest k v

/-- Go map read m[k] (also bolt Bucket.Get) on the association-list model. -/
def getList : List (String × String) → String → Option String
  | [], _ => none
  | (k, v) :: rest, p => if p = k then some v else getList rest p

/-- bolt Bucket.Put: fails on an empty key, otherwise overwrites. -/
def bPut (b : List (String × String)) (k v : String) :
    Except String (List (String × String)) :=
  if k = "" then Except.error "bolt: key required" else Except.ok (putList b k v)

/-- The Go loop over pairs with a single err variable that every iteration
overwrites: for k, v := range pairs, err = b.Put(k, v).  A failed Put leaves
the bucket unchanged and the loop continues; only the error of the last
iteration survives. -/
def putLoop : List (String × String) → Option String → List (String × String) →
    List (String × String) × Option String
  | b, err, [] => (b, err)
  | b, _, (k, v) :: rest =>
    match bPut b k v with
    | Except.ok b' => putLoop b' none rest
    | Except.error e => putLoop b (some e) rest

/-- The bolt database: the PathRedirect bucket content (none when the bucket
was never created) and a flag modelling an engine-level read-transaction
failure of db.View. -/
structure DB where
  bucket : Option (List (String × String))
  readFail : Bool
deriving DecidableEq

/-- The store read used by every db-backed handler: tx.Bucket then Get,
as an Option (none when the bucket is absent or the key is absent). -/
def storeGet (db : DB) (p : String) : Option String :=
  match db.bucket with
  | none => none
  | some b => getList b p

/-- The Resolve capability of spec section 4.3 over the durable store:
the store read packaged as (url, found). -/
def Resolve (db : DB) (p : String) : String × Bool :=
  match storeGet db p with
  | some v => (v, true)
  | none => ("", false)

/-- buildMap of the Go sources (identical in every variant): fold the parsed
YAML entries into a map, m[path] = url. -/
def buildMap (l : List PathUrlObj) : List (String × String) :=
  l.foldl (fun m o => putList m o.path o.url) []

/-- buildMapFromJson of the Go sources (identical in every variant): fold the
parsed JSON entries into a map, m[path] = url. -/
def buildMapFromJson (j : PathUrlObjJson) : List (String × String) :=
  j.pathURL.foldl (fun m u => putList m u.path u.url) []

/-- The shared prologue of YAMLHandler / JSONHandler: when the file path is
non-empty, read the file (failing if the read fails) and use its content;
otherwise use the raw bytes argument. -/
def readSource (fs : FS) (bytes fpath : String) : Except String String :=
  if fpath ≠ "" then
    match fs fpath with
    | none => Except.error ("read error: " ++ fpath)
    | some content => Except.ok content
  else Except.ok bytes

/-- parseYAML of the Go sources: a pass-through of yaml.Unmarshal. -/
def parseYAML (py : YParse) (s : String) : Except String (List PathUrlObj) :=
  py s

/-- parseJSON of the Go sources: a pass-through of json.Unmarshal. -/
def parseJSON (pj : JParse) (s : String) : Except String PathUrlObjJson :=
  pj s

/-- True when a handler constructor reported success (a non-nil handler and
a nil error). -/
def reportsOk (r : DB × Except String Handler) : Bool :=
  match r.2 with
  | Except.ok _ => true
  | Except.error _ => false

namespace Mpereira

/-- MapHandler of src/students/mpereira/handler.go.  With a non-nil db the
returned handler runs a View transaction: it takes the PathRedirect bucket
(crashing on Get if the bucket is absent, since tx.Bucket returned nil),
reads the key, and unconditionally redirects to string(v) with 308; the
closure returns nil, so the fallback runs only if the View itself fails.
With a nil db it looks the path up in the map and redirects with 308 on a
hit, falling back on a miss. -/
def MapHandler (pathsToUrls : List (String × String)) (db : Option DB)
    (fallback : Handler) : Handler :=
  fun path =>
    match db with
    | some store =>
      if store.readFail then fallback path
      else
        match store.bucket with
        | none => HRes.crash
        | some b => HRes.redirect 308 ((getList b path).getD "")
    | none =>
      match getList pathsToUrls path with
      | some val => HRes.redirect 308 val
      | none => fallback path

/-- The db.Update transaction in JSONHandler of mpereira: ensure the bucket
exists, then Put every map entry with the err-overwriting loop; on a non-nil
final err the transaction rolls back. -/
def jsonUpdate (db : DB) (pathMap : List (String × String)) :
    DB × Option String :=
  match putLoop (db.bucket.getD []) none pathMap with
  | (_, some e) => (db, some e)
  | (b1, none) => (DB.mk (some b1) db.readFail, none)

/-- YAMLHandler of mpereira: read the file when a path is given, parse,
build the map, wrap it in MapHandler with a nil db.  Returns the parse or
read error (and a nil handler) on failure. -/
def YAMLHandler (py : YParse) (fs : FS) (yaml yamlFilePath : String)
    (fallback : Handler) : Except String Handler :=
  match readSource fs yaml yamlFilePath with
  | Except.error e => Except.error e
  | Except.ok content =>
    match parseYAML py content with
    | Except.error e => Except.error e
    | Except.ok parsedYaml =>
      Except.ok (MapHandler (buildMap parsedYaml) none fallback)

/-- JSONHandler of mpereira: read/parse, build the map, run the update
transaction (whose error the Go code discards), and return MapHandler over
the map and the db with a nil error.  Returns the updated store paired with
the handler-or-error. -/
def JSONHandler (pj : JParse) (fs : FS) (jsonBytes jsonFilePath : String)
    (db : DB) (fallback : Handler) : DB × Except String Handler :=
  match readSource fs jsonBytes jsonFilePath with
  | Except.error e => (db, Except.error e)
  | Except.ok content =>
    match parseJSON pj content with
    | Except.error e => (db, Except.error e)
    | Except.ok parsedJson =>
      let pathMap := buildMapFromJson parsedJson
      let r := jsonUpdate db pathMap
      (r.1, Except.ok (MapHandler pathMap (some r.1) fallback))

end Mpereira

namespace Part001

/-- MapHandler of src/unnamed/part_001: pure map lookup, redirecting with
302 (http.StatusFound) on a hit and falling back on a miss. -/
def MapHandler (pathsToUrls : List (String × String)) (fallback : Handler) :
    Handler :=
  fun path =>
    match getList pathsToUrls path with
    | some dest => HRes.redirect 302 dest
    | none => fallback path

/-- jsonReader of part_001: for a non-empty file path, read the file and
parse it, returning the built map; for an empty file path return (nil, nil),
modelled as ok none. -/
def jsonReader (pj : JParse) (fs : FS) (filePath : String) :
    Except String (Option (List (String × String))) :=
  if filePath ≠ "" then
    match fs filePath with
    | none => Except.error ("read error: " ++ filePath)
    | some content =>
      match parseJSON pj content with
      | Except.error e => Except.error e
      | Except.ok parsed => Except.ok (some (buildMapFromJson parsed))
  else Except.ok none

/-- loadDB of part_001: with a nil db do nothing; otherwise run an Update
transaction that reads ../conf.json via jsonReader, ensures the bucket
exists, and Puts every entry with the err-overwriting loop.  A non-nil
closure error rolls the transaction back and is returned. -/
def loadDB (pj : JParse) (fs : FS) (db : Option DB) :
    Option DB × Option String :=
  match db with
  | none => (none, none)
  | some store =>
    match jsonReader pj fs "../conf.json" with
    | Except.error e => (some store, some e)
    | Except.ok m =>
      match putLoop (store.bucket.getD []) none (m.getD []) with
      | (_, some e) => (some store, some e)
      | (b1, none) => (some (DB.mk (some b1) store.readFail), none)

/-- DBHandler of part_001: every request first runs loadDB and panics on a
seed error; then, with a non-nil db, runs a View transaction that reads the
key (crashing if the bucket is absent) and unconditionally redirects with
308 to the value, the empty string when the key is absent; the fallback runs
only when the View itself fails.  With a nil db nothing is written, which
net/http turns into an empty 200 body. -/
def DBHandler (pj : JParse) (fs : FS) (db : Option DB) (fallback : Handler) :
    Handler :=
  fun path =>
    match loadDB pj fs db with
    | (_, some _) => HRes.crash
    | (db', none) =>
      match db' with
      | none => HRes.body ""
      | some store =>
        if store.readFail then fallback path
        else
          match store.bucket with
          | none => HRes.crash
          | some b => HRes.redirect 308 ((getList b path).getD "")

end Part001

namespace Part002

/-- MapHandler of src/unnamed/part_002: textually the same handler as
mpereira MapHandler (db branch: unconditional 308 redirect of string(v),
crash when the bucket is absent; map branch: 308 on hit, fallback on miss). -/
def MapHandler (pathsToUrls : List (String × String)) (db : Option DB)
    (fallback : Handler) : Handler :=
  fun path =>
    match db with
    | some store =>
      if store.readFail then fallback path
      else
        match store.bucket with
        | none => HRes.crash
        | some b => HRes.redirect 308 ((getList b path).getD "")
    | none =>
      match getList pathsToUrls path with
      | some val => HRes.redirect 308 val
      | none => fallback path

/-- encodeJSON of part_002: json.Marshal of a pathUrlUnit.  Marshal of a
struct of two string fields cannot fail; the model is accurate for strings
that need no JSON escaping, which covers every input used below. -/
def encodeJSON (p : PathUrlUnit) : String :=
  "\x7b\"path\":\"" ++ p.path ++ "\",\"url\":\"" ++ p.url ++ "\"\x7d"

/-- The db.Update transaction in JSONHandler of part_002: take the existing
bucket with tx.Bucket, which is nil when the bucket was never created, so the
first Put on it panics (modelled as none); then Put every parsed entry keyed
by its path with the JSON-encoded pair as value, with the err-overwriting
loop; a non-nil final err rolls the transaction back. -/
def jsonUpdate (db : DB) (pairs : List PathUrlUnit) :
    Option (DB × Option String) :=
  match db.bucket with
  | none => if pairs.isEmpty then some (db, none) else none
  | some b0 =>
    match putLoop b0 none (pairs.map (fun v => (v.path, encodeJSON v))) with
    | (_, some e) => some (db, some e)
    | (b1, none) => some (DB.mk (some b1) db.readFail, none)

/-- JSONHandler of part_002: read/parse, run the update transaction storing
JSON-encoded pairs (the update error is assigned to err and then discarded),
build the map, and return MapHandler over the map and the db with a nil
error.  none models a panic inside the update. -/
def JSONHandler (pj : JParse) (fs : FS) (jsonBytes jsonFilePath : String)
    (db : DB) (fallback : Handler) : Option (DB × Except String Handler) :=
  match readSource fs jsonBytes jsonFilePath with
  | Except.error e => some (db, Except.error e)
  | Except.ok content =>
    match parseJSON pj content with
    | Except.error e => some (db, Except.error e)
    | Except.ok parsedJson =>
      match jsonUpdate db parsedJson.pathURL with
      | none => none
      | some (db', _) =>
        let pathMap := buildMapFromJson parsedJson
        some (db', Except.ok (MapHandler pathMap (some db') fallback))

end Part002

namespace Part003

/-- MapHandler of src/unnamed/part_003: pure map lookup, redirecting with
308 on a hit and falling back on a miss. -/
def MapHandler (pathsToUrls : List (String × String)) (fallback : Handler) :
    Handler :=
  fun path =>
    match getList pathsToUrls path with
    | some val => HRes.redirect 308 val
    | none => fallback path

/-- YAMLHandler of part_003: read the file when a path is given, parse,
build the map, wrap it in MapHandler.  Returns the parse or read error on
failure. -/
def YAMLHandler (py : YParse) (fs : FS) (yaml yamlFilePath : String)
    (fallback : Handler) : Except String Handler :=
  match readSource fs yaml yamlFilePath with
  | Except.error e => Except.error e
  | Except.ok content =>
    match parseYAML py content with
    | Except.error e => Except.error e
    | Except.ok parsedYaml =>
      Except.ok (MapHandler (buildMap parsedYaml) fallback)

end Part003

/-- The default terminal fallback of both main.go files: a fixed
Hello, world response. -/
def helloFb : Handler := fun _ => HRes.body "Hello, world!\n"

/-- The keys of a bucket or map, in order. -/
def keysOf (b : List (String × String)) : List String := b.map Prod.fst

/-- The value of the last pair for a given key in a sequence of pairs, the
specification-side reading of last-write-wins. -/
def lastVal : List (String × String) → String → Option String
  | [], _ => none
  | (k, v) :: rest, p =>
    match lastVal rest p with
    | some u => some u
    | none => if p = k then some v else none

/-- Folding a sequence of writes into a map or bucket, the pure shape every
successful Put loop takes. -/
def foldPut (b : List (String × String)) (pairs : List (String × String)) :
    List (String × String) :=
  pairs.foldl (fun acc kv => putList acc kv.1 kv.2) b

/-- The url of the last entry for a given path in a parsed YAML sequence. -/
def lastUrl (l : List PathUrlObj) (p : String) : Option String :=
  lastVal (l.map (fun o => (o.path, o.url))) p

/-- A parse function producing the single pair (/a, x). -/
def pjSingle : JParse :=
  fun _ => Except.ok (PathUrlObjJson.mk [PathUrlUnit.mk "/a" "x"])

/-- A parse function producing a batch whose first pair has an empty path,
on which bolt Put fails, followed by a pair that Put accepts. -/
def pjBatch : JParse :=
  fun _ => Except.ok (PathUrlObjJson.mk [PathUrlUnit.mk "" "x", PathUrlUnit.mk "/a" "y"])

/-- A parse function producing an empty pair sequence. -/
def pjNil : JParse := fun _ => Except.ok (PathUrlObjJson.mk [])

/-- A JSON parse function that always fails. -/
def pjBad : JParse := fun _ => Except.error "ParseError"

/-- A YAML parse function that always fails. -/
def pyBad : YParse := fun _ => Except.error "ParseError"

/-- A YAML parse function producing an empty pair sequence. -/
def pyNil : YParse := fun _ => Except.ok []

/-- A file system on which every read fails (every file is absent). -/
def fsNone : FS := fun _ => none

/-- A file system on which every read yields a fixed content. -/
def fsConst : FS := fun _ => some "content"

/-- Reading after an overwrite: the written key returns the new value, every
other key is unchanged. -/
theorem getList_putList (b : List (String × String)) (k v p : String) :
    getList (putList b k v) p = if p = k then some v else getList b p := by
  induction b with
  | nil => simp [putList, getList]
  | cons hd tl ih =>
    obtain ⟨k', v'⟩ := hd
    simp only [putList]
    by_cases hk : k' = k
    · subst hk
      by_cases hp : p = k'
      · simp [getList, hp]
      · simp [getList, hp]
    · simp only [if_neg hk, getList, ih]
      by_cases hp : p = k'
      · subst hp
        simp [hk, Ne.symm]
      · simp [hp]

/-- Reading after a fold of writes: the last write for the key wins, and keys
never written keep their prior value. -/
theorem getList_foldPut (pairs : List (String × String))
    (b : List (String × String)) (p : String) :
    getList (foldPut b pairs) p =
      match lastVal pairs p with
      | some u => some u
      | none => getList b p := by
  induction pairs generalizing b with
  | nil => simp [foldPut, lastVal]
  | cons hd tl ih =>
    obtain ⟨k, v⟩ := hd
    have hfold : foldPut b ((k, v) :: tl) = foldPut (putList b k v) tl := rfl
    rw [hfold, ih]
    simp only [lastVal]
    cases h : lastVal tl p with
    | some u => simp
    | none =>
      rw [getList_putList]
      by_cases hp : p = k <;> simp [hp]

/-- Membership in the keys after an overwrite. -/
theorem mem_keysOf_putList (b : List (String × String)) (k v q : String) :
    q ∈ keysOf (putList b k v) ↔ q = k ∨ q ∈ keysOf b := by
  induction b with
  | nil => simp [putList, keysOf]
  | cons hd tl ih =>
    obtain ⟨k', v'⟩ := hd
    by_cases hk : k' = k
    · subst hk
      simp [putList, keysOf]
    · simp [putList, hk, keysOf] at ih ⊢
      tauto

/-- Overwriting preserves distinctness of keys. -/
theorem nodupKeys_putList (b : List (String × String)) (k v : String)
    (h : (keysOf b).Nodup) : (keysOf (putList b k v)).Nodup := by
  induction b with
  | nil => simp [putList, keysOf]
  | cons hd tl ih =>
    obtain ⟨k', v'⟩ := hd
    simp only [keysOf, List.map_cons, List.nodup_cons] at h
    by_cases hk : k' = k
    · subst hk
      simpa [putList, keysOf] using h
    · simp only [putList, if_neg hk, keysOf, List.map_cons, List.nodup_cons]
      refine ⟨?_, ih h.2⟩
      intro hmem
      rcases (mem_keysOf_putList tl k v k').1 hmem with h1 | h1
      · exact hk h1
      · exact h.1 h1

/-- A fold of overwrites preserves distinctness of keys. -/
theorem nodupKeys_foldPut (pairs : List (String × String))
    (b : List (String × String)) (h : (keysOf b).Nodup) :
    (keysOf (foldPut b pairs)).Nodup := by
  induction pairs generalizing b with
  | nil => exact h
  | cons hd tl ih => exact ih (putList b hd.1 hd.2) (nodupKeys_putList b hd.1 hd.2 h)

/-- A key absent from the key list has no last value. -/
theorem lastVal_notMem (b : List (String × String)) (p : String)
    (h : p ∉ keysOf b) : lastVal b p = none := by
  induction b with
  | nil => rfl
  | cons hd tl ih =>
    obtain ⟨k, v⟩ := hd
    simp only [keysOf, List.map_cons, List.mem_cons, not_or] at h
    simp [lastVal, ih h.2, h.1]

/-- With distinct keys, the first match read by getList is also the last
value. -/
theorem lastVal_of_getList (b : List (String × String)) (p u : String)
    (hnd : (keysOf b).Nodup) (h : getList b p = some u) : lastVal b p = some u := by
  induction b with
  | nil => simp [getList] at h
  | cons hd tl ih =>
    obtain ⟨k, v⟩ := hd
    simp only [keysOf, List.map_cons, List.nodup_cons] at hnd
    by_cases hp : p = k
    · subst hp
      simp [getList] at h
      have hnone : lastVal tl p = none := lastVal_notMem tl p hnd.1
      simp [lastVal, hnone, h]
    · simp only [getList, if_neg hp] at h
      simp [lastVal, ih hnd.2 h]

/-- When every key in the batch is a valid bolt key (non-empty), the
err-overwriting Put loop is the pure fold of overwrites and its final err is
nil (or the initial err if the batch is empty). -/
theorem putLoop_ok (pairs : List (String × String))
    (b : List (String × String)) (e0 : Option String)
    (h : ∀ kv ∈ pairs, kv.1 ≠ "") :
    putLoop b e0 pairs = (foldPut b pairs, if pairs.isEmpty then e0 else none) := by
  induction pairs generalizing b e0 with
  | nil => simp [putLoop, foldPut]
  | cons hd tl ih =>
    obtain ⟨k, v⟩ := hd
    have hk : k ≠ "" := h (k, v) (List.mem_cons_self _ _)
    have hrest : ∀ kv ∈ tl, kv.1 ≠ "" := fun kv hm => h kv (List.mem_cons_of_mem _ hm)
    simp only [putLoop, bPut, if_neg hk]
    rw [ih (putList b k v) none hrest]
    have hfold : foldPut b ((k, v) :: tl) = foldPut (putList b k v) tl := rfl
    rw [hfold]
    simp [ite_self]

/-- buildMap is the fold of overwrites over the projected pairs. -/
theorem buildMap_eq_foldPut (l : List PathUrlObj) :
    buildMap l = foldPut [] (l.map (fun o => (o.path, o.url))) := by
  simp [buildMap, foldPut, List.foldl_map]

/-- buildMapFromJson is the fold of overwrites over the projected pairs. -/
theorem buildMapFromJson_eq_foldPut (j : PathUrlObjJson) :
    buildMapFromJson j = foldPut [] (j.pathURL.map (fun u => (u.path, u.url))) := by
  simp [buildMapFromJson, foldPut, List.foldl_map]

/-- The maps built by the sources have pairwise-distinct keys. -/
theorem nodupKeys_buildMapFromJson (j : PathUrlObjJson) :
    (keysOf (buildMapFromJson j)).Nodup := by
  rw [buildMapFromJson_eq_foldPut]
  exact nodupKeys_foldPut _ [] (by simp [keysOf])

/-- Claim C5: building a PathMap from any sequence of (path, url) pairs is a
deterministic left-to-right fold in which the last pair for a given path wins
and no error is produced on duplicates (buildMap is total); in particular the
sequence (/a, x) then (/a, y) yields map[/a] = y. -/
theorem c5_buildMap_last_wins :
    (∀ (l : List PathUrlObj) (p : String), getList (buildMap l) p = lastUrl l p)
    ∧ getList (buildMap [PathUrlObj.mk "/a" "x", PathUrlObj.mk "/a" "y"]) "/a"
      = some "y" := by
  constructor
  · intro l p
    rw [buildMap_eq_foldPut, getList_foldPut]
    unfold lastUrl
    cases lastVal (l.map (fun o => (o.path, o.url))) p <;> simp [getList]
  · decide

/-- Claim C6: a Redirect Handler over source A whose fallback is a Redirect
Handler over source B whose fallback is the default handler produces the
redirect target of B for a path present only in B (the chain is the part_003
MapHandler over the part_001 MapHandler, the two variants the claim cites). -/
theorem c6_chain_composition (A B : List (String × String)) (dflt : Handler)
    (p u : String) (hA : getList A p = none) (hB : getList B p = some u) :
    redirectTarget (Part003.MapHandler A (Part001.MapHandler B dflt) p) = some u := by
  simp [Part003.MapHandler, Part001.MapHandler, hA, hB, redirectTarget]

/-- Witness for C6 at a concrete chain: /b is absent from A and maps to u in
B, and the chain redirects to u. -/
theorem c6_chain_composition_witness :
    redirectTarget
        (Part003.MapHandler [("/x", "y")]
          (Part001.MapHandler [("/b", "u")] helloFb) "/b") = some "u" :=
  c6_chain_composition [("/x", "y")] [("/b", "u")] helloFb "/b" "u"
    (by decide) (by decide)

/-- Claim C8 counterexample: the codebase does not use one single consistent
redirect status code.  The part_001 MapHandler resolves /a with 302 Found
while the part_003 MapHandler resolves the same map with 308 Permanent
Redirect. -/
theorem c8_status_counterexample :
    redirectStatus (Part001.MapHandler [("/a", "x")] helloFb "/a") = some 302
    ∧ redirectStatus (Part003.MapHandler [("/a", "x")] helloFb "/a") = some 308
    ∧ (302 : Nat) ≠ 308 := by decide

/-- Claim C8 as amended: every successful in-memory map resolution emits a
redirect with Location set to the resolved url, with status 308 in the
mpereira, part_002 and part_003 MapHandler variants but status 302 Found in
the part_001 MapHandler variant; the status code is not consistent across
the codebase. -/
theorem c8_amended_statuses (m : List (String × String)) (fb : Handler)
    (p u : String) (h : getList m p = some u) :
    Part003.MapHandler m fb p = HRes.redirect 308 u
    ∧ Mpereira.MapHandler m none fb p = HRes.redirect 308 u
    ∧ Part002.MapHandler m none fb p = HRes.redirect 308 u
    ∧ Part001.MapHandler m fb p = HRes.redirect 302 u := by
  simp [Part003.MapHandler, Mpereira.MapHandler, Part002.MapHandler,
    Part001.MapHandler, h]

/-- Witness for the amended C8 at a concrete map and path. -/
theorem c8_amended_statuses_witness :
    Part003.MapHandler [("/a", "x")] helloFb "/a" = HRes.redirect 308 "x"
    ∧ Mpereira.MapHandler [("/a", "x")] none helloFb "/a" = HRes.redirect 308 "x"
    ∧ Part002.MapHandler [("/a", "x")] none helloFb "/a" = HRes.redirect 308 "x"
    ∧ Part001.MapHandler [("/a", "x")] helloFb "/a" = HRes.redirect 302 "x" :=
  c8_amended_statuses [("/a", "x")] helloFb "/a" "x" (by decide)

/-- Claim C9: when parsing fails, the mpereira JSONHandler returns a nil
handler together with that same error and leaves the store untouched (no
partial PathMap is produced or used), and the mpereira YAMLHandler returns a
nil handler together with that same error. -/
theorem c9_parse_failure_propagates (pj : JParse) (py : YParse) (fs : FS)
    (bytes fp : String) (db : DB) (fb : Handler) (e c : String)
    (hread : readSource fs bytes fp = Except.ok c)
    (hpj : pj c = Except.error e) (hpy : py c = Except.error e) :
    Mpereira.JSONHandler pj fs bytes fp db fb = (db, Except.error e)
    ∧ Mpereira.YAMLHandler py fs bytes fp fb = Except.error e := by
  constructor
  · unfold Mpereira.JSONHandler
    rw [hread]
    simp [parseJSON, hpj]
  · unfold Mpereira.YAMLHandler
    rw [hread]
    simp [parseYAML, hpy]

/-- Witness for C9: a concrete always-failing parse makes both constructors
return exactly that error and an unchanged store. -/
theorem c9_parse_failure_propagates_witness :
    Mpereira.JSONHandler pjBad fsNone "bad" "" (DB.mk none false) helloFb
      = (DB.mk none false, Except.error "ParseError")
    ∧ Mpereira.YAMLHandler pyBad fsNone "bad" "" helloFb
      = Except.error "ParseError" :=
  c9_parse_failure_propagates pjBad pyBad fsNone "bad" "" (DB.mk none false)
    helloFb "ParseError" "bad" rfl rfl rfl

/-- Claim C10: with a non-empty file-path argument the raw bytes argument has
no influence on the constructed handler or the returned error; the file
content alone determines the outcome.  Shown for the mpereira YAMLHandler,
the part_003 YAMLHandler and the mpereira JSONHandler (store included). -/
theorem c10_bytes_noninterference (py : YParse) (pj : JParse) (fs : FS)
    (b1 b2 fp : String) (db : DB) (fb : Handler) (h : fp ≠ "") :
    Mpereira.YAMLHandler py fs b1 fp fb = Mpereira.YAMLHandler py fs b2 fp fb
    ∧ Part003.YAMLHandler py fs b1 fp fb = Part003.YAMLHandler py fs b2 fp fb
    ∧ Mpereira.JSONHandler pj fs b1 fp db fb
      = Mpereira.JSONHandler pj fs b2 fp db fb := by
  have hrs : readSource fs b1 fp = readSource fs b2 fp := by
    simp [readSource, h]
  refine ⟨?_, ?_, ?_⟩
  · unfold Mpereira.YAMLHandler
    rw [hrs]
  · unfold Part003.YAMLHandler
    rw [hrs]
  · unfold Mpereira.JSONHandler
    rw [hrs]

/-- Witness for C10 at two different byte inputs and the same file content. -/
theorem c10_bytes_noninterference_witness :
    Mpereira.YAMLHandler pyNil fsConst "AAA" "/conf" helloFb
      = Mpereira.YAMLHandler pyNil fsConst "BBB" "/conf" helloFb
    ∧ Part003.YAMLHandler pyNil fsConst "AAA" "/conf" helloFb
      = Part003.YAMLHandler pyNil fsConst "BBB" "/conf" helloFb
    ∧ Mpereira.JSONHandler pjNil fsConst "AAA" "/conf" (DB.mk none false) helloFb
      = Mpereira.JSONHandler pjNil fsConst "BBB" "/conf" (DB.mk none false) helloFb :=
  c10_bytes_noninterference pyNil pjNil fsConst "AAA" "BBB" "/conf"
    (DB.mk none false) helloFb (by decide)

/-- Claim C1 is violated by the code: for the path /nope, never inserted into
the map or the store, the mpereira MapHandler with a non-nil db does not
invoke the fallback at all — the View closure redirects unconditionally to
string(nil) = "" with 308 and returns nil, so the fallback branch is dead.
This contradicts the doc comment of the handler itself (the fallback will be
called when the path is not provided). -/
theorem c1_never_inserted_still_redirects :
    Mpereira.MapHandler [] (some (DB.mk (some [("/a", "x")]) false)) helloFb "/nope"
      = HRes.redirect 308 ""
    ∧ helloFb "/nope" = HRes.body "Hello, world!\n" := by decide

/-- Claim C3 is violated by the code: upserting the batch
(("", x), (/a, y)) through the mpereira JSONHandler update transaction, the
Put of the empty path fails, yet the loop overwrites err on the next
successful Put, the transaction commits, JSONHandler reports success (it
discards the Update error and returns a nil error), and a subsequent Resolve
observes (/a, y) from the failed batch. -/
theorem c3_batch_not_atomic :
    reportsOk (Mpereira.JSONHandler pjBatch fsNone "b" "" (DB.mk none false) helloFb)
      = true
    ∧ Resolve (Mpereira.JSONHandler pjBatch fsNone "b" "" (DB.mk none false) helloFb).1
        "/a" = ("y", true)
    ∧ Resolve (Mpereira.JSONHandler pjBatch fsNone "b" "" (DB.mk none false) helloFb).1
        "" = ("", false) := by decide

/-- Claim C4 is violated by the code: when the PathRedirect bucket does not
exist the mpereira MapHandler dereferences the nil bucket and crashes, and
when the bucket exists but the key is absent the part_001 DBHandler (after a
successful seed) emits a 308 redirect to the empty string instead of
reporting found=false and falling back. -/
theorem c4_missing_bucket_or_key :
    Mpereira.MapHandler [] (some (DB.mk none false)) helloFb "/x" = HRes.crash
    ∧ Part001.DBHandler pjSingle fsConst (some (DB.mk none false)) helloFb "/nope"
      = HRes.redirect 308 "" := by decide

/-- Claim C7 counterexample: a per-request seed failure is not recovered by
the fallback chain.  With the external source ../conf.json absent (every read
fails), part_001 DBHandler panics (loadDB returns the read error and the
handler calls panic), terminating the request abnormally instead of falling
back, even though the requested path is present in the store. -/
theorem c7_seed_failure_panics :
    Part001.DBHandler pjSingle fsNone (some (DB.mk (some [("/a", "x")]) false))
        helloFb "/a" = HRes.crash
    ∧ HRes.crash ≠ helloFb "/a" := by decide

/-- Claim C2 counterexample: the part_002 JSONHandler batch upsert stores the
JSON encoding of each pair, not the raw url, so after upserting (/a, x) a
Resolve of /a on the same store returns the encoded pair with found=true,
which is not the url x. -/
theorem c2_encoded_counterexample :
    (Part002.JSONHandler pjSingle fsNone "b" "" (DB.mk (some []) false) helloFb).map
        (fun r => Resolve r.1 "/a")
      = some ("\x7b\"path\":\"/a\",\"url\":\"x\"\x7d", true)
    ∧ "\x7b\"path\":\"/a\",\"url\":\"x\"\x7d" ≠ "x" := by decide

/-- Claim C2 as amended: for every pair (p, u) of the PathMap built from the
parsed JSON, provided every path in that map is a valid (non-empty) bolt
key, the mpereira JSONHandler update transaction commits and a subsequent
Resolve of p against the same store returns exactly (u, true); the part_002
JSONHandler variant instead stores the JSON encoding of each pair, so there
Resolve returns the encoding rather than u. -/
theorem c2_amended_upsert_resolve (pj : JParse) (fs : FS) (bytes : String)
    (db : DB) (fb : Handler) (j : PathUrlObjJson) (p u : String)
    (hparse : pj bytes = Except.ok j)
    (hkeys : ∀ kv ∈ buildMapFromJson j, kv.1 ≠ "")
    (hget : getList (buildMapFromJson j) p = some u) :
    Resolve (Mpereira.JSONHandler pj fs bytes "" db fb).1 p = (u, true) := by
  have hnd := nodupKeys_buildMapFromJson j
  have hlast := lastVal_of_getList _ p u hnd hget
  have hread : readSource fs bytes "" = Except.ok bytes := by simp [readSource]
  have hstep : (Mpereira.JSONHandler pj fs bytes "" db fb).1
      = (Mpereira.jsonUpdate db (buildMapFromJson j)).1 := by
    unfold Mpereira.JSONHandler
    rw [hread]
    simp [parseJSON, hparse]
  rw [hstep]
  unfold Mpereira.jsonUpdate
  rw [putLoop_ok _ _ _ hkeys, ite_self]
  simp [Resolve, storeGet, getList_foldPut, hlast]

/-- Witness for the amended C2: upserting the single pair (/a, x) through the
mpereira JSONHandler and resolving /a on the resulting store yields (x, true). -/
theorem c2_amended_upsert_resolve_witness :
    Resolve (Mpereira.JSONHandler pjSingle fsNone "b" "" (DB.mk none false) helloFb).1
        "/a" = ("x", true) :=
  c2_amended_upsert_resolve pjSingle fsNone "b" (DB.mk none false) helloFb
    (PathUrlObjJson.mk [PathUrlUnit.mk "/a" "x"]) "/a" "x" rfl (by decide) (by decide)

/-- A successful loadDB on a non-nil store returns a store with the same
read-transaction behaviour (loadDB only rewrites the bucket). -/
theorem loadDB_ok_readFail (pj : JParse) (fs : FS) (store : DB)
    (h : (Part001.loadDB pj fs (some store)).2 = none) :
    ∃ s', Part001.loadDB pj fs (some store) = (some s', none)
      ∧ s'.readFail = store.readFail := by
  unfold Part001.loadDB at h
  cases hj : Part001.jsonReader pj fs "../conf.json" with
  | error e =>
    rw [hj] at h
    simp at h
  | ok m =>
    rw [hj] at h
    replace h : (match putLoop (store.bucket.getD []) none (m.getD []) with
      | (_, some e) => ((some store : Option DB), some e)
      | (b1, none) => (some (DB.mk (some b1) store.readFail), none)).2 = none := h
    cases hp : putLoop (store.bucket.getD []) none (m.getD []) with
    | mk b1 err =>
      rw [hp] at h
      cases err with
      | some e => simp at h
      | none =>
        refine ⟨DB.mk (some b1) store.readFail, ?_, rfl⟩
        simp [Part001.loadDB, hj, hp]

/-- Claim C7 as amended: a store read-transaction failure during resolution
is recovered by delegating to the fallback (when the per-request seed
succeeds), and jsonReader treats an empty file-path argument as a no-op
(nil map, nil error); but a seed failure — including an absent external
source file — makes DBHandler panic instead of falling back (see the C7
counterexample), so not every per-request failure degrades to the fallback
chain. -/
theorem c7_amended_fallback (pj : JParse) (fs : FS) (store : DB) (fb : Handler)
    (p : String)
    (hseed : (Part001.loadDB pj fs (some store)).2 = none)
    (hview : store.readFail = true) :
    Part001.DBHandler pj fs (some store) fb p = fb p
    ∧ Part001.jsonReader pj fs "" = Except.ok none := by
  obtain ⟨s', hl, hrf⟩ := loadDB_ok_readFail pj fs store hseed
  constructor
  · show (match Part001.loadDB pj fs (some store) with
      | (_, some _) => HRes.crash
      | (db', none) =>
        match db' with
        | none => HRes.body ""
        | some st =>
          if st.readFail then fb p
          else
            match st.bucket with
            | none => HRes.crash
            | some b => HRes.redirect 308 ((getList b p).getD "")) = fb p
    rw [hl]
    simp [hrf, hview]
  · rfl

/-- Witness for the amended C7: with a successfully seeded store whose read
transactions fail, DBHandler delegates to the fallback, and jsonReader with
an empty path is a no-op. -/
theorem c7_amended_fallback_witness :
    Part001.DBHandler pjNil fsConst (some (DB.mk none true)) helloFb "/a"
      = helloFb "/a"
    ∧ Part001.jsonReader pjNil fsConst "" = Except.ok none :=
  c7_amended_fallback pjNil fsConst (DB.mk none true) helloFb "/a" (by decide) rfl
